import Mathlib

/-!
Verification of the `azureimageprocessing` event-grid pipeline.

The repository holds three variants of the same Azure Function source file:
the named `src/src/functions/ProcessImage.ts` (encodes to `image/png`, no
source-container check, no create-if-absent on the destination container) and
two unnamed variants `src/unnamed/part_000` / `src/unnamed/part_001`
(encode to `image/jpeg`, explicit `BLOB_CONTAINER_NAME` check, and
`createIfNotExists` before upload).  The two unnamed variants are
observationally identical, so a single embedding (`Part001`) covers both; the
named file is embedded separately (`MainTs`).

Machine strings are Lean `String`; byte buffers are `List Nat`; the
asynchronous byte source is a list of stream events; external collaborators
(the Azure storage SDK, the Jimp codec) are a `World` record of responses, and
the calls made to them are recorded in an `Action` trace.
-/

namespace AIP

/-- Values thrown by the JavaScript code: `new Error(msg)` from explicit
`throw` statements, and the `TypeError` raised by dereferencing
`null`/`undefined`. -/
inductive JsError where
  | error (msg : String)
  | typeError (msg : String)
  deriving Repr, DecidableEq

instance {α β : Type} [DecidableEq α] [DecidableEq β] : DecidableEq (Except α β) := fun x y =>
  match x, y with
  | .ok a, .ok b =>
    if h : a = b then isTrue (by rw [h]) else isFalse (by simp [h])
  | .error a, .error b =>
    if h : a = b then isTrue (by rw [h]) else isFalse (by simp [h])
  | .ok _, .error _ => isFalse (by simp)
  | .error _, .ok _ => isFalse (by simp)

/-- Rendering of a thrown value by the template literal
`Failed to process image: [dollar]\x7berror\x7d`, which stringifies an `Error e`
as `Error: e` and a `TypeError e` as `TypeError: e`. -/
def jsErrorString : JsError → String
  | .error m => "Error: " ++ m
  | .typeError m => "TypeError: " ++ m

/-- Events emitted by a Node.js readable stream, in emission order: zero or
more `data` chunks, then at most one terminal `ended` or `errored` signal.
The model does not force a terminal event: a stream with none leaves the
collecting promise pending forever. -/
inductive StreamEvent where
  | data (chunk : List Nat)
  | ended
  | errored (e : JsError)
  deriving Repr, DecidableEq

/-- Settlement of the promise built by `streamToBuffer`, replayed over the
event list.  Every `data` chunk is pushed onto the accumulator (the
`data instanceof Buffer` test only normalizes the chunk type, which the byte
model renders as the identity); `end` resolves with `Buffer.concat(chunks)`;
`error` rejects; once settled, later events are ignored; a stream that never
signals `end` or `error` never settles (`none`). -/
def runCollector : List StreamEvent → List (List Nat) → Option (Except JsError (List Nat))
  | [], _ => none
  | .data c :: rest, acc => runCollector rest (acc ++ [c])
  | .ended :: _, acc => some (.ok acc.flatten)
  | .errored e :: _, _ => some (.error e)

/-- Embedding of `streamToBuffer` (identical in all three source variants).
An absent stream (`readableStreamBody` null or undefined) is NOT tolerated:
the registrations `readableStream?.on(data, ...)` and
`readableStream?.on(end, ...)` short-circuit, but the final
`readableStream.on(error, reject)` has no optional chaining, so the promise
executor throws a `TypeError`, which rejects the promise. -/
def streamToBuffer : Option (List StreamEvent) → Option (Except JsError (List Nat))
  | none => some (.error (.typeError "Cannot read properties of null"))
  | some events => runCollector events []

/-- Single-character split with JavaScript `String.prototype.split`
semantics: the result is never empty, separators at the ends produce empty
segments, and a list without the separator yields itself as the only
segment. -/
def splitChar (sep : Char) : List Char → List (List Char)
  | [] => [[]]
  | c :: rest =>
    let r := splitChar sep rest
    if c = sep then [] :: r
    else
      match r with
      | [] => [[c]]
      | h :: t => (c :: h) :: t

/-- Embedding of `blobUrl.split('/').pop()`: the final segment of the split,
i.e. everything after the last slash (the whole string when it has no
slash). -/
def jsSplitPop (s : String) : String :=
  String.mk ((splitChar '/' s.data).getLastD [])

/-- JavaScript falsiness of an optional string: `undefined`, `null` and the
empty string are falsy. -/
def jsFalsy : Option String → Bool
  | none => true
  | some s => s.isEmpty

/-- Stringification applied by the SDK when a container name taken from an
unset environment variable reaches `getContainerClient`:
`encodeURIComponent(undefined)` is the literal string `undefined`, so the
client addresses a container of that name.  (The real SDK additionally
rejects syntactically invalid names such as the empty string before any
network traffic; no claim depends on that path, so it is not modelled.) -/
def jsEnvString : Option String → String
  | none => "undefined"
  | some s => s

/-- Pixel of a decoded raster image: RGB channels plus an optional alpha
channel. -/
structure Pixel where
  r : Nat
  g : Nat
  b : Nat
  a : Option Nat
  deriving Repr, DecidableEq

/-- In-memory raster produced by the decoder. -/
structure DecodedImage where
  width : Nat
  height : Nat
  pixels : List Pixel
  deriving Repr, DecidableEq

/-- Modelled from the spec: the Transform Engine of §4.3 is implemented by
the external Jimp library (`image.greyscale()`), whose source is not under
`src/`.  Per the contract, every pixel's channels are replaced by its
luminance-derived grey value; the Rec. 709 luminance weights are used with
integer truncation, scaled so they sum exactly to one. -/
def luminance (p : Pixel) : Nat :=
  (2126 * p.r + 7152 * p.g + 722 * p.b) / 10000

/-- Grey replacement of one pixel: all colour channels become the luminance,
the alpha channel is untouched. -/
def greyPixel (p : Pixel) : Pixel :=
  { r := luminance p, g := luminance p, b := luminance p, a := p.a }

/-- Modelled from the spec: `greyscale(image)` mutates every pixel to its
grey value, preserving width, height and alpha (§4.3). -/
def greyscale (img : DecodedImage) : DecodedImage :=
  { img with pixels := img.pixels.map greyPixel }

/-- Payload of the Event Grid notification: `event.data` may be absent, and
its `url` field may itself be absent. -/
structure EventData where
  url : Option String
  deriving Repr, DecidableEq

/-- Trigger record received by the function. -/
structure EventGridEvent where
  data : Option EventData
  deriving Repr, DecidableEq

/-- Environment configuration read by the function: the three `process.env`
variables `AzureWebJobsStorage`, `BLOB_CONTAINER_NAME` and
`PROCESSED_BLOB_CONTAINER_NAME`; `none` models an unset variable. -/
structure Config where
  azureWebJobsStorage : Option String
  blobContainerName : Option String
  processedBlobContainerName : Option String
  deriving Repr, DecidableEq

/-- Calls the pipeline makes to its external collaborators, in program
order.  `fromConnectionString` (client construction) and `getBuffer` (the
Jimp encoder) are local computations; the three storage operations reach the
network. -/
inductive Action where
  | fromConnectionString (conn : Option String)
  | downloadBlob (container blobName : String)
  | getBuffer (mime : String)
  | createContainerIfNotExists (container : String)
  | uploadBlob (container blobName : String) (bytes : List Nat)
  deriving Repr, DecidableEq

/-- Storage operations that reach the network; constructing the client and
encoding the image do not. -/
def Action.isNetwork : Action → Bool
  | .downloadBlob _ _ => true
  | .createContainerIfNotExists _ => true
  | .uploadBlob _ _ _ => true
  | _ => false

/-- Test for a destination-container create-if-absent call. -/
def Action.isCreateContainer : Action → Bool
  | .createContainerIfNotExists _ => true
  | _ => false

/-- Responses of the external collaborators: the Azure blob SDK
(`download`, `createIfNotExists`, `upload`) and the Jimp codec (`jimpRead`
for `Jimp.read`, `getBuffer` for `image.getBuffer(mime)`).  Each call either
returns a value or throws. -/
structure World where
  download : String → String → Except JsError (Option (List StreamEvent))
  jimpRead : List Nat → Except JsError DecodedImage
  getBuffer : DecodedImage → String → Except JsError (List Nat)
  createIfNotExists : String → Except JsError Bool
  upload : String → String → List Nat → Except JsError Unit

/-- Result of running the `try` block: it returns, throws, or awaits a
promise that never settles. -/
inductive BodyOutcome where
  | ok
  | threw (e : JsError)
  | pending
  deriving Repr, DecidableEq

/-- Observable completed run: the trace of collaborator calls and the single
`context.error` line produced by the `catch` clause (`none` on success).
The checkpoint `context.log` lines are purely observational and are not
modelled. -/
structure Run where
  trace : List Action
  errorLog : Option String
  deriving Repr, DecidableEq

end AIP

namespace AIP.Part001

open AIP

/-- Embedding of the `try` block of `ProcessImage` in `src/unnamed/part_001`
(and, observationally, `src/unnamed/part_000`, which differs only in its log
lines): URL and blob-name checks, client construction, the explicit
`BLOB_CONTAINER_NAME` check, download, stream collection, decode, greyscale,
JPEG encode, create-if-absent of the destination container, then upload
under the `processed-` name.  The value is the trace of collaborator calls
made so far, paired with how the block ended.  `fromConnectionString`
(external SDK) throws synchronously, before any network traffic, when the
connection string is absent or empty. -/
def body (event : EventGridEvent) (env : Config) (w : World) :
    List Action × BodyOutcome :=
  let blobUrl := event.data.bind EventData.url
  if jsFalsy blobUrl then ([], .threw (.error "Missing blob URL"))
  else
    let blobName := jsSplitPop (blobUrl.getD "")
    if blobName.isEmpty then ([], .threw (.error "Missing blob name"))
    else
      let t0 := [Action.fromConnectionString env.azureWebJobsStorage]
      if jsFalsy env.azureWebJobsStorage then
        (t0, .threw (.error "Invalid connection string"))
      else
        if jsFalsy env.blobContainerName then
          (t0, .threw (.error "BLOB_CONTAINER_NAME environment variable is not set."))
        else
          let container := jsEnvString env.blobContainerName
          let t1 := t0 ++ [Action.downloadBlob container blobName]
          match w.download container blobName with
          | .error e => (t1, .threw e)
          | .ok streamBody =>
            match streamToBuffer streamBody with
            | none => (t1, .pending)
            | some (.error e) => (t1, .threw e)
            | some (.ok imageBuffer) =>
              match w.jimpRead imageBuffer with
              | .error e => (t1, .threw e)
              | .ok image =>
                let grey := greyscale image
                let t2 := t1 ++ [Action.getBuffer "image/jpeg"]
                match w.getBuffer grey "image/jpeg" with
                | .error e => (t2, .threw e)
                | .ok processedImageBuffer =>
                  let processedBlobName := "processed-" ++ blobName
                  let dest := jsEnvString env.processedBlobContainerName
                  let t3 := t2 ++ [Action.createContainerIfNotExists dest]
                  match w.createIfNotExists dest with
                  | .error e => (t3, .threw e)
                  | .ok _created =>
                    let t4 := t3 ++
                      [Action.uploadBlob dest processedBlobName processedImageBuffer]
                    match w.upload dest processedBlobName processedImageBuffer with
                    | .error e => (t4, .threw e)
                    | .ok _ => (t4, .ok)

/-- Embedding of the whole async function: the `try` block wrapped in the
`catch` clause, which logs the error and returns normally.  The outer
`Option` is settlement of the promise the function returns (`none` when an
awaited promise inside never settles); the `Except` layer is how it settles,
and the `catch` clause keeps it from ever rejecting. -/
def ProcessImage (event : EventGridEvent) (env : Config) (w : World) :
    Option (Except JsError Run) :=
  match body event env w with
  | (_, .pending) => none
  | (t, .ok) => some (.ok { trace := t, errorLog := none })
  | (t, .threw e) =>
    some (.ok { trace := t, errorLog := some ("Failed to process image: " ++ jsErrorString e) })

end AIP.Part001

namespace AIP.MainTs

open AIP

/-- Embedding of the `try` block of `ProcessImage` in
`src/src/functions/ProcessImage.ts`.  Differences from the `part_001`
variant: no check of `BLOB_CONTAINER_NAME` (an unset variable is stringified
to the container name `undefined`), the encoder targets `image/png` through
the `getBufferAsync` wrapper, and the upload is attempted without any
create-if-absent call on the destination container. -/
def body (event : EventGridEvent) (env : Config) (w : World) :
    List Action × BodyOutcome :=
  let blobUrl := event.data.bind EventData.url
  if jsFalsy blobUrl then ([], .threw (.error "Missing blob URL"))
  else
    let blobName := jsSplitPop (blobUrl.getD "")
    if blobName.isEmpty then ([], .threw (.error "Missing blob name"))
    else
      let t0 := [Action.fromConnectionString env.azureWebJobsStorage]
      if jsFalsy env.azureWebJobsStorage then
        (t0, .threw (.error "Invalid connection string"))
      else
        let container := jsEnvString env.blobContainerName
        let t1 := t0 ++ [Action.downloadBlob container blobName]
        match w.download container blobName with
        | .error e => (t1, .threw e)
        | .ok streamBody =>
          match streamToBuffer streamBody with
          | none => (t1, .pending)
          | some (.error e) => (t1, .threw e)
          | some (.ok imageBuffer) =>
            match w.jimpRead imageBuffer with
            | .error e => (t1, .threw e)
            | .ok image =>
              let grey := greyscale image
              let t2 := t1 ++ [Action.getBuffer "image/png"]
              match w.getBuffer grey "image/png" with
              | .error e => (t2, .threw e)
              | .ok processedImageBuffer =>
                let processedBlobName := "processed-" ++ blobName
                let dest := jsEnvString env.processedBlobContainerName
                let t3 := t2 ++
                  [Action.uploadBlob dest processedBlobName processedImageBuffer]
                match w.upload dest processedBlobName processedImageBuffer with
                | .error e => (t3, .threw e)
                | .ok _ => (t3, .ok)

/-- Embedding of the whole async function of `ProcessImage.ts`: `try` block
plus the `catch` clause, as in `Part001.ProcessImage`. -/
def ProcessImage (event : EventGridEvent) (env : Config) (w : World) :
    Option (Except JsError Run) :=
  match body event env w with
  | (_, .pending) => none
  | (t, .ok) => some (.ok { trace := t, errorLog := none })
  | (t, .threw e) =>
    some (.ok { trace := t, errorLog := some ("Failed to process image: " ++ jsErrorString e) })

end AIP.MainTs

namespace AIP

/-- Sample decoded image used by concrete runs. -/
def sampleImage : DecodedImage :=
  { width := 1, height := 1, pixels := [{ r := 10, g := 20, b := 30, a := none }] }

/-- Concrete collaborator responses for sample runs: the download yields a
three-byte body in two chunks, decoding yields `sampleImage`, the encoder
answers `[1]` for `image/jpeg` and `[2]` for any other MIME type, and the
destination operations succeed. -/
def sampleWorld : World where
  download := fun _ _ => .ok (some [.data [1, 2], .data [3], .ended])
  jimpRead := fun _ => .ok sampleImage
  getBuffer := fun _ mime => if mime = "image/jpeg" then .ok [1] else .ok [2]
  createIfNotExists := fun _ => .ok true
  upload := fun _ _ _ => .ok ()

/-- Sample notification for the object `cat.png` in the `in` container. -/
def catEvent : EventGridEvent :=
  { data := some { url := some "https://acct.blob.core.windows.net/in/cat.png" } }

/-- Notification without a payload, hence without `data.url`. -/
def missingUrlEvent : EventGridEvent := { data := none }

/-- Fully populated environment. -/
def goodEnv : Config :=
  { azureWebJobsStorage := some "conn", blobContainerName := some "in",
    processedBlobContainerName := some "out" }

/-- Environment with `BLOB_CONTAINER_NAME` unset. -/
def envNoSrcContainer : Config :=
  { azureWebJobsStorage := some "conn", blobContainerName := none,
    processedBlobContainerName := some "out" }

/-- Environment with `AzureWebJobsStorage` unset. -/
def envNoCred : Config :=
  { azureWebJobsStorage := none, blobContainerName := some "in",
    processedBlobContainerName := some "out" }

/-- Trace of the successful sample run of the `ProcessImage.ts` variant. -/
def tsCatTrace : List Action :=
  [Action.fromConnectionString (some "conn"), Action.downloadBlob "in" "cat.png",
    Action.getBuffer "image/png", Action.uploadBlob "out" "processed-cat.png" [2]]

/-- Completed run on a notification without a URL: empty trace, input error
logged. -/
def missingUrlRun : Run :=
  { trace := [], errorLog := some "Failed to process image: Error: Missing blob URL" }

/-- Completed sample run of the `part_001` variant. -/
def p001CatRun : Run :=
  { trace := [Action.fromConnectionString (some "conn"), Action.downloadBlob "in" "cat.png",
      Action.getBuffer "image/jpeg", Action.createContainerIfNotExists "out",
      Action.uploadBlob "out" "processed-cat.png" [1]],
    errorLog := none }

end AIP

namespace AIP

theorem splitChar_ne_nil (sep : Char) (l : List Char) : splitChar sep l ≠ [] := by
  induction l with
  | nil => simp [splitChar]
  | cons c rest ih =>
    simp only [splitChar]
    split
    · simp
    · split
      · simp
      · simp

theorem splitChar_not_mem (sep : Char) (l : List Char) (h : sep ∉ l) :
    splitChar sep l = [l] := by
  induction l with
  | nil => rfl
  | cons c rest ih =>
    simp only [List.mem_cons, not_or] at h
    simp only [splitChar, ih h.2]
    rw [if_neg (fun hc => h.1 hc.symm)]

/-- Strings without a slash survive `split('/').pop()` unchanged. -/
theorem jsSplitPop_no_slash (s : String) (h : '/' ∉ s.data) : jsSplitPop s = s := by
  unfold jsSplitPop
  rw [splitChar_not_mem _ _ h]
  cases s
  rfl

theorem runCollector_data_append (chunks : List (List Nat)) (rest : List StreamEvent)
    (acc : List (List Nat)) :
    runCollector (chunks.map StreamEvent.data ++ rest) acc = runCollector rest (acc ++ chunks) := by
  induction chunks generalizing acc with
  | nil => simp
  | cons c cs ih =>
    simp only [List.map_cons, List.cons_append, runCollector, List.append_eq]
    rw [ih]
    simp

theorem greyPixel_idem (p : Pixel) : greyPixel (greyPixel p) = greyPixel p := by
  simp only [greyPixel, luminance]
  have : (2126 * ((2126 * p.r + 7152 * p.g + 722 * p.b) / 10000) +
      7152 * ((2126 * p.r + 7152 * p.g + 722 * p.b) / 10000) +
      722 * ((2126 * p.r + 7152 * p.g + 722 * p.b) / 10000)) / 10000 =
      (2126 * p.r + 7152 * p.g + 722 * p.b) / 10000 := by
    omega
  simp [this]

theorem map_greyPixel_idem (ps : List Pixel) :
    (ps.map greyPixel).map greyPixel = ps.map greyPixel := by
  induction ps with
  | nil => rfl
  | cons p rest ih => simp [greyPixel_idem, ih]

theorem greyPixel_alpha (p : Pixel) : (greyPixel p).a = p.a := rfl

theorem jsFalsy_of (o : Option String) (h : o = none ∨ o = some "") : jsFalsy o = true := by
  rcases h with h | h <;> subst h <;> decide

end AIP

namespace AIP.Part001

open AIP

/-- A completed run of the part_001 variant carries exactly the trace its
`try` block produced. -/
theorem run_trace (e : EventGridEvent) (env : Config) (w : World) (run : Run)
    (h : ProcessImage e env w = some (Except.ok run)) :
    ∃ oc, body e env w = (run.trace, oc) := by
  rcases hb : body e env w with ⟨t, oc⟩
  unfold ProcessImage at h
  rw [hb] at h
  cases oc with
  | pending => simp at h
  | ok =>
    simp only [Option.some.injEq, Except.ok.injEq] at h
    exact ⟨.ok, by rw [← h]⟩
  | threw err =>
    simp only [Option.some.injEq, Except.ok.injEq] at h
    exact ⟨.threw err, by rw [← h]⟩

/-- Each encoder invocation of the part_001 variant targets JPEG. -/
theorem body_mime_jpeg (e : EventGridEvent) (env : Config) (w : World)
    (t : List Action) (oc : BodyOutcome) (heq : body e env w = (t, oc)) :
    ∀ m, Action.getBuffer m ∈ t → m = "image/jpeg" := by
  intro m hm
  simp only [body] at heq
  repeat' split at heq
  all_goals injection heq with ht hoc
  all_goals subst ht
  all_goals simp_all

/-- Each uploaded buffer of the part_001 variant is an output of the encoder
invoked on the greyscaled decoded image with target `image/jpeg`. -/
theorem body_upload_encoded (e : EventGridEvent) (env : Config) (w : World)
    (t : List Action) (oc : BodyOutcome) (heq : body e env w = (t, oc)) :
    ∀ c n b, Action.uploadBlob c n b ∈ t →
      ∃ img, w.getBuffer (greyscale img) "image/jpeg" = Except.ok b := by
  intro c n b hm
  simp only [body] at heq
  repeat' split at heq
  all_goals injection heq with ht hoc
  all_goals subst ht
  all_goals simp_all
  all_goals exact ⟨_, by assumption⟩

/-- Each upload of the part_001 variant is preceded in the trace by a
create-if-absent call on the same destination container. -/
theorem body_create_before_upload (e : EventGridEvent) (env : Config) (w : World)
    (t : List Action) (oc : BodyOutcome) (heq : body e env w = (t, oc)) :
    ∀ c n b, Action.uploadBlob c n b ∈ t →
      ∃ i : Nat, ∃ j : Nat, i < j ∧ t[i]? = some (Action.createContainerIfNotExists c) ∧
        t[j]? = some (Action.uploadBlob c n b) := by
  intro c n b hmem
  simp only [body] at heq
  repeat' split at heq
  all_goals injection heq with ht hoc
  all_goals subst ht
  all_goals simp_all
  all_goals refine ⟨3, 4, by norm_num, ?_, ?_⟩ <;> simp_all

/-- With an absent or empty credential or source container name, the
part_001 `try` block throws and its trace holds no network call. -/
theorem body_prenetwork (e : EventGridEvent) (env : Config) (w : World)
    (t : List Action) (oc : BodyOutcome) (heq : body e env w = (t, oc))
    (h : jsFalsy env.azureWebJobsStorage = true ∨ jsFalsy env.blobContainerName = true) :
    t.filter Action.isNetwork = [] ∧ ∃ err, oc = BodyOutcome.threw err := by
  simp only [body] at heq
  repeat' split at heq
  all_goals injection heq with ht hoc
  all_goals subst ht hoc
  all_goals simp_all [Action.isNetwork]

/-- Each uploaded object of the part_001 variant is named by prefixing
`processed-` to the final path segment of the notification URL. -/
theorem body_upload_name (e : EventGridEvent) (env : Config) (w : World)
    (t : List Action) (oc : BodyOutcome) (heq : body e env w = (t, oc)) :
    ∀ c n b, Action.uploadBlob c n b ∈ t →
      ∃ u, e.data.bind EventData.url = some u ∧ n = "processed-" ++ jsSplitPop u := by
  intro c n b hm
  cases ho : e.data.bind EventData.url with
  | none =>
    simp only [body, ho] at heq
    simp [jsFalsy] at heq
    rcases heq with ⟨ht, hoc⟩
    subst ht
    simp at hm
  | some s =>
    simp only [body, ho] at heq
    repeat' split at heq
    all_goals injection heq with ht hoc
    all_goals subst ht
    all_goals simp_all

end AIP.Part001

namespace AIP.MainTs

open AIP

/-- A completed run of the ProcessImage.ts variant carries exactly the trace
its `try` block produced. -/
theorem run_trace_ts (e : EventGridEvent) (env : Config) (w : World) (run : Run)
    (h : ProcessImage e env w = some (Except.ok run)) :
    ∃ oc, body e env w = (run.trace, oc) := by
  rcases hb : body e env w with ⟨t, oc⟩
  unfold ProcessImage at h
  rw [hb] at h
  cases oc with
  | pending => simp at h
  | ok =>
    simp only [Option.some.injEq, Except.ok.injEq] at h
    exact ⟨.ok, by rw [← h]⟩
  | threw err =>
    simp only [Option.some.injEq, Except.ok.injEq] at h
    exact ⟨.threw err, by rw [← h]⟩

/-- Each uploaded object of the ProcessImage.ts variant is named by prefixing
`processed-` to the final path segment of the notification URL. -/
theorem body_upload_name_ts (e : EventGridEvent) (env : Config) (w : World)
    (t : List Action) (oc : BodyOutcome) (heq : body e env w = (t, oc)) :
    ∀ c n b, Action.uploadBlob c n b ∈ t →
      ∃ u, e.data.bind EventData.url = some u ∧ n = "processed-" ++ jsSplitPop u := by
  intro c n b hm
  cases ho : e.data.bind EventData.url with
  | none =>
    simp only [body, ho] at heq
    simp [jsFalsy] at heq
    rcases heq with ⟨ht, hoc⟩
    subst ht
    simp at hm
  | some s =>
    simp only [body, ho] at heq
    repeat' split at heq
    all_goals injection heq with ht hoc
    all_goals subst ht
    all_goals simp_all

/-- With a non-empty URL containing no slash and a populated environment,
the ProcessImage.ts `try` block reaches the download call, using the whole
URL as the blob name, whatever the collaborators then answer. -/
theorem body_take2 (url cred cont : String) (env : Config) (w : World)
    (h0 : url ≠ "") (h1 : '/' ∉ url.data)
    (h2 : env.azureWebJobsStorage = some cred) (h3 : cred ≠ "")
    (h4 : env.blobContainerName = some cont) :
    (body { data := some { url := some url } } env w).1.take 2 =
      [Action.fromConnectionString (some cred), Action.downloadBlob cont url] := by
  have hs : jsSplitPop url = url := jsSplitPop_no_slash url h1
  have hu : url.isEmpty = false := by
    rw [Bool.eq_false_iff]
    exact fun hh => h0 ((String.isEmpty_iff url).mp hh)
  have hc : cred.isEmpty = false := by
    rw [Bool.eq_false_iff]
    exact fun hh => h3 ((String.isEmpty_iff cred).mp hh)
  simp only [body, Option.some_bind, Option.getD_some, h2, h4, jsEnvString, jsFalsy,
    hs, hu, hc, Bool.false_eq_true, if_false]
  repeat' split
  all_goals simp [hs]

end AIP.MainTs

namespace AIP

/-- C1 counterexample: a successful run of the `ProcessImage.ts` variant
invokes the encoder with `image/png` and publishes its output `[2]`, which
differs from the JPEG re-encoding `[1]` of the same greyscaled image, so the
published bytes are not the image re-encoded to JPEG. -/
theorem c1_counterexample :
    MainTs.ProcessImage catEvent goodEnv sampleWorld =
      some (Except.ok { trace := tsCatTrace, errorLog := none }) ∧
    Action.getBuffer "image/png" ∈ tsCatTrace ∧
    Action.uploadBlob "out" "processed-cat.png" [2] ∈ tsCatTrace ∧
    sampleWorld.getBuffer (greyscale sampleImage) "image/jpeg" = Except.ok [1] ∧
    ([2] : List Nat) ≠ [1] := by
  exact ⟨by decide, by decide, by decide, by decide, by decide⟩

/-- C1 (amended): in the part_000/part_001 variant, every encoder invocation
of a completed run targets `image/jpeg`, and every published buffer is an
output of the JPEG encoder applied to the greyscaled decoded image. -/
theorem c1_publishes_jpeg (e : EventGridEvent) (env : Config) (w : World) (run : Run)
    (h : Part001.ProcessImage e env w = some (Except.ok run)) :
    (∀ m, Action.getBuffer m ∈ run.trace → m = "image/jpeg") ∧
    (∀ c n b, Action.uploadBlob c n b ∈ run.trace →
      ∃ img, w.getBuffer (greyscale img) "image/jpeg" = Except.ok b) := by
  obtain ⟨oc, hb⟩ := Part001.run_trace e env w run h
  exact ⟨Part001.body_mime_jpeg e env w run.trace oc hb,
    Part001.body_upload_encoded e env w run.trace oc hb⟩

/-- C1 witness: the sample part_001 run publishes the JPEG encoder output. -/
theorem c1_witness :
    Part001.ProcessImage catEvent goodEnv sampleWorld = some (Except.ok p001CatRun) ∧
    (∃ img, sampleWorld.getBuffer (greyscale img) "image/jpeg" = Except.ok [1]) := by
  refine ⟨by decide, ?_⟩
  exact (c1_publishes_jpeg catEvent goodEnv sampleWorld p001CatRun (by decide)).2
    "out" "processed-cat.png" [1] (by decide)

/-- C3 counterexample: the same successful run of the `ProcessImage.ts`
variant uploads the encoded buffer although its trace contains no
create-if-absent call on the destination container. -/
theorem c3_counterexample :
    MainTs.ProcessImage catEvent goodEnv sampleWorld =
      some (Except.ok { trace := tsCatTrace, errorLog := none }) ∧
    Action.uploadBlob "out" "processed-cat.png" [2] ∈ tsCatTrace ∧
    tsCatTrace.filter Action.isCreateContainer = [] := by
  exact ⟨by decide, by decide, by decide⟩

/-- C3 (amended): in the part_000/part_001 variant, every write of the
encoded buffer is preceded in the same run by a create-if-absent call on the
destination container. -/
theorem c3_create_before_upload (e : EventGridEvent) (env : Config) (w : World) (run : Run)
    (h : Part001.ProcessImage e env w = some (Except.ok run)) :
    ∀ c n b, Action.uploadBlob c n b ∈ run.trace →
      ∃ i : Nat, ∃ j : Nat, i < j ∧
        run.trace[i]? = some (Action.createContainerIfNotExists c) ∧
        run.trace[j]? = some (Action.uploadBlob c n b) := by
  obtain ⟨oc, hb⟩ := Part001.run_trace e env w run h
  exact Part001.body_create_before_upload e env w run.trace oc hb

/-- C3 witness: in the sample part_001 run the create call (index 3)
precedes the upload (index 4). -/
theorem c3_witness :
    Part001.ProcessImage catEvent goodEnv sampleWorld = some (Except.ok p001CatRun) ∧
    (∃ i : Nat, ∃ j : Nat, i < j ∧
      p001CatRun.trace[i]? = some (Action.createContainerIfNotExists "out") ∧
      p001CatRun.trace[j]? = some (Action.uploadBlob "out" "processed-cat.png" [1])) := by
  refine ⟨by decide, ?_⟩
  exact c3_create_before_upload catEvent goodEnv sampleWorld p001CatRun (by decide)
    "out" "processed-cat.png" [1] (by decide)

/-- C4: a notification without `data.url` (or with an empty one) makes both
variants end the run failed with the input error, with an empty collaborator
trace: no storage client construction, no fetch, no publish. -/
theorem c4_missing_url (e : EventGridEvent) (env : Config) (w : World)
    (h : e.data.bind EventData.url = none ∨ e.data.bind EventData.url = some "") :
    MainTs.ProcessImage e env w = some (Except.ok missingUrlRun) ∧
    Part001.ProcessImage e env w = some (Except.ok missingUrlRun) := by
  have hf : jsFalsy (e.data.bind EventData.url) = true := jsFalsy_of _ h
  have hb1 : MainTs.body e env w = ([], .threw (.error "Missing blob URL")) := by
    simp [MainTs.body, hf]
  have hb2 : Part001.body e env w = ([], .threw (.error "Missing blob URL")) := by
    simp [Part001.body, hf]
  constructor
  · unfold MainTs.ProcessImage
    rw [hb1]
    decide
  · unfold Part001.ProcessImage
    rw [hb2]
    decide

/-- C4 witness: concrete notification with no payload. -/
theorem c4_witness :
    (missingUrlEvent.data.bind EventData.url = none) ∧
    MainTs.ProcessImage missingUrlEvent goodEnv sampleWorld = some (Except.ok missingUrlRun) := by
  exact ⟨rfl,
    (c4_missing_url missingUrlEvent goodEnv sampleWorld (Or.inl rfl)).1⟩

/-- C5 counterexample: with `BLOB_CONTAINER_NAME` unset (hence not a
non-empty source container name), the `ProcessImage.ts` variant does not
fail: it issues a network download against a container named by the
stringified undefined value and even completes the run. -/
theorem c5_counterexample :
    MainTs.ProcessImage catEvent envNoSrcContainer sampleWorld =
      some (Except.ok
        { trace := [Action.fromConnectionString (some "conn"),
            Action.downloadBlob "undefined" "cat.png", Action.getBuffer "image/png",
            Action.uploadBlob "out" "processed-cat.png" [2]],
          errorLog := none }) ∧
    Action.isNetwork (Action.downloadBlob "undefined" "cat.png") = true := by
  exact ⟨by decide, rfl⟩

/-- C5 (amended): in the part_000/part_001 variant, an absent or empty
storage connection credential or source container name makes the run fail
with no network call ever issued. -/
theorem c5_config_checked (e : EventGridEvent) (env : Config) (w : World)
    (h : env.azureWebJobsStorage = none ∨ env.azureWebJobsStorage = some "" ∨
      env.blobContainerName = none ∨ env.blobContainerName = some "") :
    ∃ run : Run, Part001.ProcessImage e env w = some (Except.ok run) ∧
      run.errorLog.isSome = true ∧ run.trace.filter Action.isNetwork = [] := by
  have hf : jsFalsy env.azureWebJobsStorage = true ∨ jsFalsy env.blobContainerName = true := by
    rcases h with h | h | h | h
    · exact Or.inl (jsFalsy_of _ (Or.inl h))
    · exact Or.inl (jsFalsy_of _ (Or.inr h))
    · exact Or.inr (jsFalsy_of _ (Or.inl h))
    · exact Or.inr (jsFalsy_of _ (Or.inr h))
  rcases hb : Part001.body e env w with ⟨t, oc⟩
  have hp := Part001.body_prenetwork e env w t oc hb hf
  rcases hp.2 with ⟨err, rfl⟩
  refine ⟨{ trace := t, errorLog := some ("Failed to process image: " ++ jsErrorString err) },
    ?_, rfl, hp.1⟩
  unfold Part001.ProcessImage
  rw [hb]

/-- C5 witness: unset credential, concrete inputs. -/
theorem c5_witness :
    (envNoCred.azureWebJobsStorage = none) ∧
    (∃ run : Run, Part001.ProcessImage catEvent envNoCred sampleWorld = some (Except.ok run) ∧
      run.errorLog.isSome = true ∧ run.trace.filter Action.isNetwork = []) := by
  exact ⟨rfl, c5_config_checked catEvent envNoCred sampleWorld (Or.inl rfl)⟩

/-- C6: whenever a run of either variant completes, the promise the function
returned settles as a normal return, never as a rejection; when the `try`
block threw, the boundary logged the failure line for that error. -/
theorem c6_never_rejects (e : EventGridEvent) (env : Config) (w : World) :
    (∀ r, MainTs.ProcessImage e env w = some r →
      ∃ run, r = Except.ok run ∧
        ∀ err, (MainTs.body e env w).2 = BodyOutcome.threw err →
          run.errorLog = some ("Failed to process image: " ++ jsErrorString err)) ∧
    (∀ r, Part001.ProcessImage e env w = some r →
      ∃ run, r = Except.ok run ∧
        ∀ err, (Part001.body e env w).2 = BodyOutcome.threw err →
          run.errorLog = some ("Failed to process image: " ++ jsErrorString err)) := by
  constructor
  · intro r hr
    rcases hb : MainTs.body e env w with ⟨t, oc⟩
    unfold MainTs.ProcessImage at hr
    rw [hb] at hr
    cases oc with
    | pending => simp at hr
    | ok =>
      simp only [Option.some.injEq] at hr
      refine ⟨_, hr.symm, ?_⟩
      intro err herr
      simp at herr
    | threw e' =>
      simp only [Option.some.injEq] at hr
      refine ⟨_, hr.symm, ?_⟩
      intro err herr
      simp at herr
      subst herr
      rfl
  · intro r hr
    rcases hb : Part001.body e env w with ⟨t, oc⟩
    unfold Part001.ProcessImage at hr
    rw [hb] at hr
    cases oc with
    | pending => simp at hr
    | ok =>
      simp only [Option.some.injEq] at hr
      refine ⟨_, hr.symm, ?_⟩
      intro err herr
      simp at herr
    | threw e' =>
      simp only [Option.some.injEq] at hr
      refine ⟨_, hr.symm, ?_⟩
      intro err herr
      simp at herr
      subst herr
      rfl

/-- C6 witness: the run on a payload-free notification completes as a
normal return with the failure logged. -/
theorem c6_witness :
    MainTs.ProcessImage missingUrlEvent goodEnv sampleWorld = some (Except.ok missingUrlRun) ∧
    (∃ run, (Except.ok missingUrlRun : Except JsError Run) = Except.ok run ∧
      ∀ err, (MainTs.body missingUrlEvent goodEnv sampleWorld).2 = BodyOutcome.threw err →
        run.errorLog = some ("Failed to process image: " ++ jsErrorString err)) := by
  refine ⟨by decide, ?_⟩
  exact (c6_never_rejects missingUrlEvent goodEnv sampleWorld).1 _ (by decide)

/-- C7: in every completed run of either variant, each published object is
named by the literal prefix `processed-` concatenated with the final path
segment of the notification URL, unchanged otherwise. -/
theorem c7_output_name (e : EventGridEvent) (env : Config) (w : World) (run : Run) :
    (MainTs.ProcessImage e env w = some (Except.ok run) →
      ∀ c n b, Action.uploadBlob c n b ∈ run.trace →
        ∃ u, e.data.bind EventData.url = some u ∧ n = "processed-" ++ jsSplitPop u) ∧
    (Part001.ProcessImage e env w = some (Except.ok run) →
      ∀ c n b, Action.uploadBlob c n b ∈ run.trace →
        ∃ u, e.data.bind EventData.url = some u ∧ n = "processed-" ++ jsSplitPop u) := by
  constructor
  · intro h
    obtain ⟨oc, hb⟩ := MainTs.run_trace_ts e env w run h
    exact MainTs.body_upload_name_ts e env w run.trace oc hb
  · intro h
    obtain ⟨oc, hb⟩ := Part001.run_trace e env w run h
    exact Part001.body_upload_name e env w run.trace oc hb

/-- C7 witness: the spec example, source object `cat.png` published as
`processed-cat.png`. -/
theorem c7_witness :
    MainTs.ProcessImage catEvent goodEnv sampleWorld =
      some (Except.ok { trace := tsCatTrace, errorLog := none }) ∧
    (∃ u, catEvent.data.bind EventData.url = some u ∧
      "processed-cat.png" = "processed-" ++ jsSplitPop u) := by
  refine ⟨by decide, ?_⟩
  exact (c7_output_name catEvent goodEnv sampleWorld
      { trace := tsCatTrace, errorLog := none }).1 (by decide)
    "out" "processed-cat.png" [2] (by decide)

/-- C8: for every sequence of chunks delivered in order and closed by an
end-of-stream signal, `streamToBuffer` resolves (no rejection, no hang) with
the concatenation of the chunks strictly in arrival order. -/
theorem c8_stream_concat_in_order (chunks : List (List Nat)) :
    streamToBuffer (some (chunks.map StreamEvent.data ++ [StreamEvent.ended])) =
      some (Except.ok chunks.flatten) := by
  simp [streamToBuffer, runCollector_data_append, runCollector]

/-- C9: the greyscale transform is idempotent, and each application
preserves the width, the height, and every pixel's alpha channel (hence
alpha presence). -/
theorem c9_greyscale_idempotent (img : DecodedImage) :
    greyscale (greyscale img) = greyscale img ∧
    (greyscale img).width = img.width ∧
    (greyscale img).height = img.height ∧
    (greyscale img).pixels.map Pixel.a = img.pixels.map Pixel.a := by
  refine ⟨?_, rfl, rfl, ?_⟩
  · simp only [greyscale]
    rw [map_greyPixel_idem]
  · simp [greyscale, greyPixel_alpha]

/-- C2: evaluation of `streamToBuffer` at an absent byte source.  The
promise rejects with a `TypeError` (the `error` registration lacks optional
chaining), instead of resolving with the empty buffer the claim and the spec
require. -/
theorem c2_null_source_rejects :
    streamToBuffer none = some (Except.error (JsError.typeError "Cannot read properties of null")) ∧
    streamToBuffer none ≠ some (Except.ok []) := by
  exact ⟨rfl, by decide⟩

/-- C10: a non-empty URL without any slash is its own final path segment, so
the run proceeds to fetch using the whole URL as the blob name: the trace of
the ProcessImage.ts `try` block begins with client construction followed by
a download of that blob, for every collaborator behavior. -/
theorem c10_no_slash_url (url cred cont : String) (env : Config) (w : World)
    (h0 : url ≠ "") (h1 : '/' ∉ url.data)
    (h2 : env.azureWebJobsStorage = some cred) (h3 : cred ≠ "")
    (h4 : env.blobContainerName = some cont) :
    jsSplitPop url = url ∧
    (MainTs.body { data := some { url := some url } } env w).1.take 2 =
      [Action.fromConnectionString (some cred), Action.downloadBlob cont url] := by
  exact ⟨jsSplitPop_no_slash url h1,
    MainTs.body_take2 url cred cont env w h0 h1 h2 h3 h4⟩

/-- C10 witness: the bare name `cat.png` used as the whole locator. -/
theorem c10_witness :
    ("cat.png" : String) ≠ "" ∧
    jsSplitPop "cat.png" = "cat.png" ∧
    (MainTs.body { data := some { url := some "cat.png" } } goodEnv sampleWorld).1.take 2 =
      [Action.fromConnectionString (some "conn"), Action.downloadBlob "in" "cat.png"] := by
  refine ⟨by decide, ?_, ?_⟩
  · exact (c10_no_slash_url "cat.png" "conn" "in" goodEnv sampleWorld
      (by decide) (by decide) rfl (by decide) rfl).1
  · exact (c10_no_slash_url "cat.png" "conn" "in" goodEnv sampleWorld
      (by decide) (by decide) rfl (by decide) rfl).2

end AIP
